import Mathlib

/-!
# Verification of the short-url identifier subsystem

A shallow embedding of the Go sources of `oharai/short-url`:

* `internal/shorturl/infra/base62_kgs.go`   — Base62 codec and key generation service
* `internal/shorturl/infra/memory_repository.go` — in-memory repository
* `internal/shorturl/domain/shorturl.go`    — the `ShortURL` entity
* `internal/shorturl/app/service.go`        — the lifecycle service

Modelling conventions:

* Go `int64` values are represented by their 64-bit patterns, i.e. natural
  numbers `< 2^64`; `toInt` recovers the signed value.  Wrapping arithmetic
  is `% 2^64` on patterns; the Go `>>` on a signed operand is an *arithmetic*
  shift, modelled by `asr51` below.
* Go strings are `List Char` (the sources only ever compare and slice ASCII).
* A Go `(value, error)` pair is `Except String value`; functions that can
  also panic (nil dereference after a discarded `crypto/rand` error) return
  the three-valued `GoRes`.
* Wall-clock readings are passed in explicitly as parameters.
-/

namespace ShortUrl

/-- The 62-symbol alphabet, `base62Chars` of base62_kgs.go:
digits `0-9`, then lowercase `a-z`, then uppercase `A-Z`. -/
def base62Chars : List Char :=
  "0123456789abcdefghijklmnopqrstuvwxyzABCDEFGHIJKLMNOPQRSTUVWXYZ".toList

/-- `base62Chars[d]`; the Go sources only index with `d = num % 62 < 62`,
so the default is never reached. -/
def base62Char (d : Nat) : Char := base62Chars.getD d '0'

def two63 : Nat := 2 ^ 63

def two64 : Nat := 2 ^ 64

/-- The signed value of a 64-bit pattern. -/
def toInt (a : Nat) : Int := if a < two63 then (a : Int) else (a : Int) - (two64 : Int)

/-- The loop of `encodeBase62`:
`for num > 0 { result = string(base62Chars[num%62]) + result; num /= 62 }`.
The Go loop terminates because `num` strictly decreases; `fuel` bounds the
number of iterations and `encodeBase62` passes `num` itself, which always
suffices. -/
def encLoop : Nat → Nat → List Char → List Char
  | 0, _, acc => acc
  | fuel + 1, num, acc =>
    if num = 0 then acc else encLoop fuel (num / 62) (base62Char (num % 62) :: acc)

/-- `encodeBase62` of base62_kgs.go.  The `int64` argument is given as its
64-bit pattern.  `num == 0` returns `"0"`; for a negative `num` the loop
guard `num > 0` fails immediately and the empty string is returned; for a
positive `num` the pattern equals the value. -/
def encodeBase62 (a : Nat) : List Char :=
  if toInt a = 0 then ['0']
  else if toInt a < 0 then []
  else encLoop a a []

/-- The character-to-digit conversion inside `DecodeBase62` (the `switch`
on byte ranges `'0'..'9'`, `'a'..'z'`, `'A'..'Z'`). -/
def charVal (c : Char) : Option Nat :=
  if '0' ≤ c ∧ c ≤ '9' then some (c.toNat - '0'.toNat)
  else if 'a' ≤ c ∧ c ≤ 'z' then some (c.toNat - 'a'.toNat + 10)
  else if 'A' ≤ c ∧ c ≤ 'Z' then some (c.toNat - 'A'.toNat + 36)
  else none

/-- The loop of `DecodeBase62`, consuming the characters right to left while
maintaining `result += digit * power; power *= 62` in wrapping `int64`
arithmetic (`% 2^64` on patterns). -/
def decodeLoop : List Char → Nat → Nat → Option Nat
  | [], result, _ => some result
  | c :: rest, result, power =>
    match charVal c with
    | none => none
    | some d => decodeLoop rest ((result + d * power) % two64) ((power * 62) % two64)

/-- `DecodeBase62` of base62_kgs.go; `none` models the invalid-character
error return. -/
def DecodeBase62 (s : List Char) : Option Nat := decodeLoop s.reverse 0 1

/-- Arithmetic (sign-extending) right shift by 51 of an int64 pattern.
The Go `scrambled >> (64 - 13)` acts on a signed operand, so the vacated high
bits are filled with the sign bit, not with zeros. -/
def asr51 (a : Nat) : Nat :=
  if a < two63 then a >>> 51 else (a >>> 51) ||| (two64 - 2 ^ 13)

/-- `generateNonSequentialValue` of base62_kgs.go.  Parameters: the current
counter pattern, the low 16 bits of `time.Now().UnixNano()`, and the outcome
of `rand.Int(rand.Reader, big.NewInt(1000))`.  A `none` outcome models a
failing randomness source: the Go code discards the error with a blank
identifier and then calls `Int64()` on the `nil` `*big.Int`, which panics
rather than returning — modelled as `none`. -/
def generateNonSequentialValue (counter timeSeed : Nat) (randOutcome : Option Nat) :
    Option Nat :=
  match randOutcome with
  | none => none
  | some r =>
    let scrambled := counter ^^^ timeSeed
    let scrambled := (scrambled + r) % two64
    let scrambled := ((scrambled <<< 13) % two64) ||| asr51 scrambled
    some (if toInt scrambled < 0 then (two64 - scrambled) % two64 else scrambled)

/-- `padToLength`: left-pad with `'0'` up to `length` characters; a string
already of that length or longer is returned unchanged. -/
def padToLength (str : List Char) (length : Nat) : List Char :=
  if length ≤ str.length then str
  else List.replicate (length - str.length) '0' ++ str

/-- Result of a Go call that may return a value, return a non-nil error,
or panic. -/
inductive GoRes (α : Type) where
  | ok : α → GoRes α
  | fail : String → GoRes α
  | crash : GoRes α
deriving DecidableEq

/-- The mutable state of `Base62KeyGenerationService`: the `int64` counter
(as a 64-bit pattern) and the FIFO buffer of pre-generated identifiers. -/
structure KGSState where
  counter : Nat
  buffer : List (List Char)
deriving DecidableEq

/-- `NewBase62KeyGenerationService`: seeds the counter with
`rand.Int(rand.Reader, 1000000).Int64() + time.Now().Unix()`.  The rand
error is discarded with a blank identifier; when the randomness source
fails, `randomStart.Int64()` dereferences `nil` and panics (`crash`). -/
def NewBase62KeyGenerationService (randStart : Option Nat) (nowUnix : Nat) :
    GoRes KGSState :=
  match randStart with
  | none => .crash
  | some v => .ok ⟨(v + nowUnix) % two64, []⟩

/-- The loop of `generateMultipleIDsInternal`: synthesize `count` identifiers,
advancing the counter by one per iteration (`k.counter++`, wrapping `int64`).
`env i` supplies the clock low bits of the i-th iteration and rand outcome.  The
Go implementation never returns a non-nil error (its own doc comment:
"Always nil for this implementation"); a failing rand draw panics inside
`generateNonSequentialValue`. -/
def generateMultipleIDsInternal (counter count : Nat)
    (env : Nat → Nat × Option Nat) : GoRes (List (List Char) × Nat) :=
  match count with
  | 0 => .ok ([], counter)
  | k + 1 =>
    match generateNonSequentialValue counter (env 0).1 (env 0).2 with
    | none => .crash
    | some uniqueValue =>
      let id := padToLength (encodeBase62 uniqueValue) 7
      match generateMultipleIDsInternal ((counter + 1) % two64) k (fun i => env (i + 1)) with
      | .ok (rest, c) => .ok (id :: rest, c)
      | .fail m => .fail m
      | .crash => .crash

/-- `GetMultipleIDs`: generate `count` identifiers in one locked section. -/
def GetMultipleIDs (st : KGSState) (count : Nat) (env : Nat → Nat × Option Nat) :
    GoRes (List (List Char) × KGSState) :=
  match generateMultipleIDsInternal st.counter count env with
  | .ok (ids, c) => .ok (ids, ⟨c, st.buffer⟩)
  | .fail m => .fail m
  | .crash => .crash

/-- `GenerateUniqueID`: pop the front buffer entry when available, otherwise
synthesize one identifier on demand. -/
def GenerateUniqueID (st : KGSState) (env : Nat → Nat × Option Nat) :
    GoRes (List Char × KGSState) :=
  match st.buffer with
  | id :: rest => .ok (id, ⟨st.counter, rest⟩)
  | [] =>
    match generateMultipleIDsInternal st.counter 1 env with
    | .ok (ids, c) => .ok (ids.headD [], ⟨c, []⟩)
    | .fail m => .fail m
    | .crash => .crash

/-- `RefillBuffer`: when the buffer holds fewer than 100 entries, append
1000 newly synthesized identifiers. -/
def RefillBuffer (st : KGSState) (env : Nat → Nat × Option Nat) : GoRes KGSState :=
  if st.buffer.length < 100 then
    match generateMultipleIDsInternal st.counter 1000 env with
    | .ok (ids, c) => .ok ⟨c, st.buffer ++ ids⟩
    | .fail m => .fail ("failed to refill buffer: " ++ m)
    | .crash => .crash
  else .ok st

/-- The `ShortURL` entity of domain/shorturl.go.  Timestamps are abstract
`Nat` instants; the metadata map is an opaque key-value list that the core
passes through uninterpreted. -/
structure ShortURL where
  id : List Char
  longURL : List Char
  shortURL : List Char
  createdAt : Nat
  expiry : Option Nat
  isActive : Bool
  userMetadata : List (List Char × List Char)
deriving DecidableEq

/-- `NewShortURL` (generated-ID constructor): validates `longURL` then
`shortURL`, and on success starts the entity active with `createdAt = now`. -/
def NewShortURL (id longURL shortURL : List Char) (expiry : Option Nat)
    (userMetadata : List (List Char × List Char)) (now : Nat) :
    Except String ShortURL :=
  if longURL = [] then .error "long URL cannot be empty"
  else if shortURL = [] then .error "short URL cannot be empty"
  else .ok ⟨id, longURL, shortURL, now, expiry, true, userMetadata⟩

/-- `NewCustomShortURL` (custom-ID constructor): validates `longURL` then
`customURL`; both `id` and `shortURL` are set to `customURL`. -/
def NewCustomShortURL (customURL longURL : List Char) (expiry : Option Nat)
    (userMetadata : List (List Char × List Char)) (now : Nat) :
    Except String ShortURL :=
  if longURL = [] then .error "long URL cannot be empty"
  else if customURL = [] then .error "custom URL cannot be empty"
  else .ok ⟨customURL, longURL, customURL, now, expiry, true, userMetadata⟩

/-- `IsExpired`: `false` without an expiry; otherwise whether `now` is
strictly after it (`time.Now().After(*s.expiry)`). -/
def IsExpired (now : Nat) (s : ShortURL) : Bool :=
  match s.expiry with
  | none => false
  | some e => e < now

/-- The backing map of `MemoryShortURLRepository`, keyed by `ShortURL.id`
(a Go map is a finite partial function). -/
def Store : Type := List Char → Option ShortURL

def emptyStore : Store := fun _ => none

/-- `Save`: upsert under `shortURL.ID()`; always succeeds. -/
def Save (st : Store) (e : ShortURL) : Store :=
  fun k => if k = e.id then some e else st k

/-- `FindByID`: the entity, or `none` when absent (never an error for the
in-memory repository). -/
def FindByID (st : Store) (id : List Char) : Option ShortURL := st id

/-- `Delete`: an error when `id` is absent (the map is untouched),
otherwise remove exactly that entry.  The first component is the returned
error, the second the store after the call. -/
def Delete (st : Store) (id : List Char) : Option String × Store :=
  match st id with
  | none => (some "short URL not found", st)
  | some _ => (none, fun k => if k = id then none else st k)

/-- `strings.TrimSuffix(baseURL, "/")`: drop one trailing `'/'` when
present. -/
def trimSlashSuffix (s : List Char) : List Char :=
  if s.getLast? = some '/' then s.dropLast else s

/-- `buildShortURL`: `fmt.Sprintf("%s/%s", strings.TrimSuffix(s.baseURL, "/"), id)`. -/
def buildShortURL (baseURL id : List Char) : List Char :=
  trimSlashSuffix baseURL ++ '/' :: id

/-- `strings.Split(s, "/")`: the `'/'`-separated groups of `s`; the result
is never empty (splitting the empty string gives one empty group). -/
def splitOnSlash : List Char → List (List Char)
  | [] => [[]]
  | c :: rest =>
    match splitOnSlash rest with
    | [] => [[]]
    | g :: gs => if c = '/' then [] :: g :: gs else (c :: g) :: gs

/-- `extractIDFromShortURL`: the final `'/'`-separated segment of the input
(Go falls back to the whole string when the split is empty, which cannot
happen; `getLastD` carries the same fallback). -/
def extractIDFromShortURL (shortURL : List Char) : List Char :=
  (splitOnSlash shortURL).getLastD shortURL

/-- `CreateShortURLRequest` of app/dto.go (empty `customURL` means no
custom identifier was requested). -/
structure CreateShortURLRequest where
  longURL : List Char
  customURL : List Char
  expiry : Option Nat
  userMetadata : List (List Char × List Char)

/-- `CreateShortURL` of app/service.go.  The returned triple carries the
response (the created short URL), and the store and generator state after
the call; error paths return them as they stood at the point of failure,
mirroring which mutations the Go code has performed.  Analytics emission
does not affect the result and is not modelled. -/
def CreateShortURL (baseURL : List Char) (st : Store) (kst : KGSState)
    (env : Nat → Nat × Option Nat) (req : CreateShortURLRequest) (now : Nat) :
    GoRes (List Char) × Store × KGSState :=
  if req.longURL = [] then (.fail "longUrl is required", st, kst)
  else if req.customURL ≠ [] then
    match FindByID st req.customURL with
    | some _ => (.fail "custom URL already exists", st, kst)
    | none =>
      match NewCustomShortURL req.customURL req.longURL req.expiry req.userMetadata now with
      | .error m => (.fail m, st, kst)
      | .ok e => (.ok e.shortURL, Save st e, kst)
  else
    match GenerateUniqueID kst env with
    | .crash => (.crash, st, kst)
    | .fail m => (.fail ("failed to generate unique ID: " ++ m), st, kst)
    | .ok (id, kst') =>
      match NewShortURL id req.longURL (buildShortURL baseURL id) req.expiry
          req.userMetadata now with
      | .error m => (.fail m, st, kst')
      | .ok e => (.ok e.shortURL, Save st e, kst')

/-- `GetLongURL` of app/service.go: validate, extract the identifier, look
it up, check active/expiry state, and return the long URL. -/
def GetLongURL (st : Store) (shortURL : List Char) (now : Nat) :
    Except String (List Char) :=
  if shortURL = [] then .error "shortUrl is required"
  else
    match FindByID st (extractIDFromShortURL shortURL) with
    | none => .error "short URL not found"
    | some e =>
      if !e.isActive || IsExpired now e then
        .error "short URL is not active or expired"
      else .ok e.longURL

/-- A well-formed emitted identifier: at least 7 characters, all drawn from
the 62-symbol alphabet. -/
def GoodID (id : List Char) : Prop :=
  7 ≤ id.length ∧ ∀ c ∈ id, c ∈ base62Chars

/-- A true 64-bit left rotation by 13 positions (the operation described by the
synthesis algorithm of the spec). -/
def rotl13 (a : Nat) : Nat := ((a <<< 13) % two64) ||| (a >>> 51)

example : encodeBase62 0 = ['0'] := by decide
example : encodeBase62 10 = ['a'] := by decide
example : encodeBase62 36 = ['A'] := by decide
example : encodeBase62 61 = ['Z'] := by decide
example : encodeBase62 62 = ['1', '0'] := by decide
example : DecodeBase62 ['1', '0'] = some 62 := by decide
example : DecodeBase62 ['z'] = some 35 := by decide
example : DecodeBase62 ['!'] = none := by decide
example : DecodeBase62 [] = some 0 := by decide

example :
    GenerateUniqueID ⟨0, []⟩ (fun _ => (0, some 0)) =
      .ok (['0', '0', '0', '0', '0', '0', '0'], ⟨1, []⟩) := by decide

example :
    GenerateUniqueID ⟨2 ^ 30, []⟩ (fun _ => (0, some 0)) =
      .ok ((encodeBase62 (2 ^ 43)), ⟨2 ^ 30 + 1, []⟩) := by decide

example : (encodeBase62 (2 ^ 43)).length = 8 := by decide

example : generateNonSequentialValue (2 ^ 50) 0 (some 0) = some (2 ^ 63) := by decide

example :
    extractIDFromShortURL "http://test.com/abc123".toList = "abc123".toList := by decide

example :
    extractIDFromShortURL "http://test.com/path/def456".toList = "def456".toList := by
  decide

example : extractIDFromShortURL "abc123".toList = "abc123".toList := by decide

example : buildShortURL "http://test.com/".toList "x".toList = "http://test.com/x".toList := by
  decide

example :
    (CreateShortURL "http://test.com".toList emptyStore ⟨0, []⟩ (fun _ => (0, some 0))
        ⟨"https://example.com".toList, [], none, []⟩ 0).1 =
      .ok "http://test.com/0000000".toList := by decide

example :
    GetLongURL
      (CreateShortURL "http://test.com".toList emptyStore ⟨0, []⟩ (fun _ => (0, some 0))
        ⟨"https://example.com".toList, [], none, []⟩ 0).2.1
      "http://test.com/0000000".toList 99 = .ok "https://example.com".toList := rfl

/-! ## Base62 codec lemmas -/

theorem encLoop_eq_digits :
    ∀ fuel num acc, num ≤ fuel →
      encLoop fuel num acc = ((Nat.digits 62 num).map base62Char).reverse ++ acc := by
  intro fuel
  induction fuel with
  | zero =>
    intro num acc h
    have : num = 0 := Nat.le_zero.mp h
    subst this
    simp [encLoop]
  | succ k ih =>
    intro num acc h
    by_cases h0 : num = 0
    · subst h0; simp [encLoop]
    · have hpos : 0 < num := Nat.pos_of_ne_zero h0
      have hdiv : num / 62 ≤ k := by
        have := Nat.div_lt_self hpos (by norm_num : 1 < 62)
        omega
      rw [show encLoop (k + 1) num acc
            = encLoop k (num / 62) (base62Char (num % 62) :: acc) by
          simp [encLoop, h0]]
      rw [ih (num / 62) _ hdiv, Nat.digits_def' (by norm_num : 1 < 62) hpos]
      simp

theorem charVal_base62Char : ∀ d, d < 62 → charVal (base62Char d) = some d := by decide

theorem decodeLoop_exact :
    ∀ (ds : List Nat) (r p : Nat), (∀ d ∈ ds, d < 62) →
      (∀ k, k < ds.length → p * 62 ^ k < two63) →
      r + p * (Nat.ofDigits 62 ds : ℕ) < two63 →
      decodeLoop (ds.map base62Char) r p = some (r + p * (Nat.ofDigits 62 ds : ℕ)) := by
  intro ds
  induction ds with
  | nil => intro r p _ _ _; simp [decodeLoop, Nat.ofDigits]
  | cons d tl ih =>
    intro r p hds hpw hb
    have hd : d < 62 := hds d (List.mem_cons_self d tl)
    have hof : (Nat.ofDigits 62 (d :: tl) : ℕ) = d + 62 * (Nat.ofDigits 62 tl : ℕ) :=
      Nat.ofDigits_cons
    have hp0 : p * 62 ^ 0 < two63 := hpw 0 (by simp)
    have hdp : d * p ≤ p * (Nat.ofDigits 62 (d :: tl) : ℕ) := by
      rw [hof, mul_comm]
      exact Nat.mul_le_mul_left p (Nat.le_add_right d _)
    have hres : r + d * p < two63 := by
      have := hb; nlinarith
    have hW : two63 < two64 := by norm_num [two63, two64]
    simp only [List.map_cons, decodeLoop, charVal_base62Char d hd]
    rw [Nat.mod_eq_of_lt (lt_trans hres hW)]
    cases tl with
    | nil =>
      simp [decodeLoop, hof]
      ring
    | cons d' tl' =>
      have h62p : p * 62 < two63 := by
        have := hpw 1 (by simp)
        simpa using this
      rw [Nat.mod_eq_of_lt (by omega : p * 62 < two64)]
      have := ih (r + d * p) (p * 62)
        (fun x hx => hds x (List.mem_cons_of_mem d hx))
        (fun k hk => by
          have := hpw (k + 1) (by simpa using Nat.succ_lt_succ hk)
          calc p * 62 * 62 ^ k = p * 62 ^ (k + 1) := by ring
          _ < two63 := this)
        (by rw [hof] at hb; nlinarith)
      rw [this, hof]
      congr 1
      ring

/-- C5: for every non-negative integer `n` representable in a signed 64-bit
integer (`n < 2^63`), decoding the Base62 encoding of `n` gives back `n`:
`DecodeBase62 (encodeBase62 n) = some n`. -/
theorem decode_encode_roundtrip (n : Nat) (hn : n < two63) :
    DecodeBase62 (encodeBase62 n) = some n := by
  by_cases h0 : n = 0
  · subst h0; decide
  · have hn64 : n < two64 := lt_trans hn (by norm_num [two63, two64])
    have htoInt : toInt n = (n : Int) := by simp [toInt, hn]
    have henc : encodeBase62 n = ((Nat.digits 62 n).map base62Char).reverse := by
      unfold encodeBase62
      rw [htoInt]
      rw [if_neg (by exact_mod_cast h0), if_neg (by omega)]
      simpa using encLoop_eq_digits n n [] le_rfl
    rw [henc]
    unfold DecodeBase62
    rw [List.reverse_reverse]
    have hlt : ∀ d ∈ Nat.digits 62 n, d < 62 := fun d hd =>
      Nat.digits_lt_base (by norm_num) hd
    have hlen : (Nat.digits 62 n).length = Nat.log 62 n + 1 :=
      Nat.digits_len 62 n (by norm_num) h0
    have hpw : ∀ k, k < (Nat.digits 62 n).length → 1 * 62 ^ k < two63 := by
      intro k hk
      rw [hlen] at hk
      have hk' : k ≤ Nat.log 62 n := by omega
      calc 1 * 62 ^ k = 62 ^ k := one_mul _
      _ ≤ 62 ^ Nat.log 62 n := Nat.pow_le_pow_right (by norm_num) hk'
      _ ≤ n := Nat.pow_log_le_self 62 h0
      _ < two63 := hn
    have hb : 0 + 1 * (Nat.ofDigits 62 (Nat.digits 62 n) : ℕ) < two63 := by
      rw [Nat.ofDigits_digits]; simpa using hn
    rw [decodeLoop_exact (Nat.digits 62 n) 0 1 hlt hpw hb]
    rw [Nat.ofDigits_digits]
    simp

/-- Witness for C5 at `n = 9223372036854775807 = 2^63 - 1`, the largest
representable value (mirroring the max-int64 test of the repository). -/
theorem decode_encode_roundtrip_witness :
    DecodeBase62 (encodeBase62 9223372036854775807) = some 9223372036854775807 :=
  decode_encode_roundtrip 9223372036854775807 (by norm_num [two63])

/-! ## Identifier well-formedness -/

theorem base62Char_mem : ∀ d, d < 62 → base62Char d ∈ base62Chars := by decide

theorem encLoop_chars :
    ∀ fuel num acc, (∀ c ∈ acc, c ∈ base62Chars) →
      ∀ c ∈ encLoop fuel num acc, c ∈ base62Chars := by
  intro fuel
  induction fuel with
  | zero => intro num acc hacc; simpa [encLoop] using hacc
  | succ k ih =>
    intro num acc hacc
    by_cases h0 : num = 0
    · simpa [encLoop, h0] using hacc
    · rw [show encLoop (k + 1) num acc
            = encLoop k (num / 62) (base62Char (num % 62) :: acc) by
          simp [encLoop, h0]]
      refine ih (num / 62) _ ?_
      intro c hc
      rcases List.mem_cons.mp hc with h | h
      · subst h; exact base62Char_mem _ (Nat.mod_lt _ (by norm_num))
      · exact hacc c h

theorem encodeBase62_chars (a : Nat) : ∀ c ∈ encodeBase62 a, c ∈ base62Chars := by
  unfold encodeBase62
  split
  · intro c hc; simp at hc; subst hc; decide
  · split
    · intro c hc; simp at hc
    · exact encLoop_chars a a [] (by simp)

theorem goodID_padded (s : List Char) (hs : ∀ c ∈ s, c ∈ base62Chars) :
    GoodID (padToLength s 7) := by
  constructor
  · unfold padToLength
    split
    · assumption
    · simp; omega
  · intro c hc
    unfold padToLength at hc
    split at hc
    · exact hs c hc
    · rcases List.mem_append.mp hc with h | h
      · have := List.eq_of_mem_replicate h
        subst this; decide
      · exact hs c h

theorem goodID_synth (v : Nat) : GoodID (padToLength (encodeBase62 v) 7) :=
  goodID_padded _ (encodeBase62_chars v)

theorem generateMultipleIDsInternal_good :
    ∀ count counter env ids c',
      generateMultipleIDsInternal counter count env = .ok (ids, c') →
      ∀ id ∈ ids, GoodID id := by
  intro count
  induction count with
  | zero =>
    intro counter env ids c' h id hid
    simp [generateMultipleIDsInternal] at h
    rw [h.1] at hid
    simp at hid
  | succ k ih =>
    intro counter env ids c' h id hid
    unfold generateMultipleIDsInternal at h
    cases hg : generateNonSequentialValue counter (env 0).1 (env 0).2 with
    | none => rw [hg] at h; simp at h
    | some v =>
      rw [hg] at h
      simp only at h
      cases hrec : generateMultipleIDsInternal ((counter + 1) % two64) k
          (fun i => env (i + 1)) with
      | ok out =>
        rw [hrec] at h
        cases h
        rcases List.mem_cons.mp hid with heq | htail
        · subst heq; exact goodID_synth v
        · exact ih _ _ out.1 out.2 (by rw [hrec]) id htail
      | fail m => rw [hrec] at h; simp at h
      | crash => rw [hrec] at h; simp at h

theorem generateMultipleIDsInternal_length :
    ∀ count counter env ids c',
      generateMultipleIDsInternal counter count env = .ok (ids, c') →
      ids.length = count := by
  intro count
  induction count with
  | zero =>
    intro counter env ids c' h
    simp [generateMultipleIDsInternal] at h
    simp [h.1]
  | succ k ih =>
    intro counter env ids c' h
    unfold generateMultipleIDsInternal at h
    cases hg : generateNonSequentialValue counter (env 0).1 (env 0).2 with
    | none => rw [hg] at h; simp at h
    | some v =>
      rw [hg] at h
      simp only at h
      cases hrec : generateMultipleIDsInternal ((counter + 1) % two64) k
          (fun i => env (i + 1)) with
      | ok out =>
        rw [hrec] at h
        cases h
        simpa using ih _ _ out.1 out.2 (by rw [hrec])
      | fail m => rw [hrec] at h; simp at h
      | crash => rw [hrec] at h; simp at h

/-- C1 counterexample: at the reachable generator state with counter
`2^30` and an empty buffer, the identifier emitted by `GenerateUniqueID`
(the Base62 encoding of scrambled value `2^43`) has length 8, not 7:
the encoding of a scrambled value `≥ 62^7` is used unpadded. -/
theorem generated_id_length_not_seven :
    GenerateUniqueID ⟨2 ^ 30, []⟩ (fun _ => (0, some 0)) =
      .ok (encodeBase62 (2 ^ 43), ⟨2 ^ 30 + 1, []⟩) ∧
    (encodeBase62 (2 ^ 43)).length = 8 := by
  constructor <;> decide

/-- C1 (amended): every identifier emitted by `GenerateUniqueID` or
`GetMultipleIDs` — popped from a buffer of previously synthesized
identifiers or synthesized on demand — has length at least 7 (exactly 7 is
not guaranteed: values `≥ 62^7` encode longer and stay unpadded) and
consists only of characters of the 62-symbol alphabet. -/
theorem emitted_identifiers_wellformed (kst : KGSState)
    (env : Nat → Nat × Option Nat) (count : Nat)
    (hbuf : ∀ id ∈ kst.buffer, GoodID id) :
    (∀ id kst', GenerateUniqueID kst env = .ok (id, kst') → GoodID id) ∧
    (∀ ids kst', GetMultipleIDs kst count env = .ok (ids, kst') →
      ∀ id ∈ ids, GoodID id) := by
  constructor
  · intro id kst' h
    unfold GenerateUniqueID at h
    cases hb : kst.buffer with
    | cons b rest =>
      rw [hb] at h
      simp only [GoRes.ok.injEq, Prod.mk.injEq] at h
      rw [← h.1]
      exact hbuf b (hb ▸ List.mem_cons_self b rest)
    | nil =>
      rw [hb] at h
      cases hrec : generateMultipleIDsInternal kst.counter 1 env with
      | ok out =>
        rw [hrec] at h
        simp only [GoRes.ok.injEq, Prod.mk.injEq] at h
        have hgood := generateMultipleIDsInternal_good 1 kst.counter env out.1 out.2
          (by rw [hrec])
        have hlen := generateMultipleIDsInternal_length 1 kst.counter env out.1 out.2
          (by rw [hrec])
        rw [← h.1]
        cases hout : out.1 with
        | nil => rw [hout] at hlen; simp at hlen
        | cons x xs =>
          simpa [hout] using hgood x (by rw [hout]; exact List.mem_cons_self x xs)
      | fail m => rw [hrec] at h; simp at h
      | crash => rw [hrec] at h; simp at h
  · intro ids kst' h
    unfold GetMultipleIDs at h
    cases hrec : generateMultipleIDsInternal kst.counter count env with
    | ok out =>
      rw [hrec] at h
      simp only [GoRes.ok.injEq, Prod.mk.injEq] at h
      rw [← h.1]
      exact generateMultipleIDsInternal_good count kst.counter env out.1 out.2 (by rw [hrec])
    | fail m => rw [hrec] at h; simp at h
    | crash => rw [hrec] at h; simp at h

/-- Witness for C1 (amended): the identifier emitted from the fresh state
with counter 0 is the 7 × `'0'` string, which is well-formed. -/
theorem emitted_identifiers_wellformed_witness :
    GoodID ['0', '0', '0', '0', '0', '0', '0'] :=
  (emitted_identifiers_wellformed ⟨0, []⟩ (fun _ => (0, some 0)) 1
    (by intro id hid; simp at hid)).1
    ['0', '0', '0', '0', '0', '0', '0'] ⟨1, []⟩ (by decide)

/-! ## The synthesis step (C4) -/

theorem rotl13_lt (a : Nat) (ha : a < two64) : rotl13 a < two64 := by
  have h1 : (a <<< 13) % two64 < 2 ^ 64 := by
    have : (0 : Nat) < two64 := by norm_num [two64]
    simpa [two64] using Nat.mod_lt (a <<< 13) this
  have h2 : a >>> 51 < 2 ^ 64 := by
    rw [Nat.shiftRight_eq_div_pow]
    calc a / 2 ^ 51 ≤ a := Nat.div_le_self _ _
    _ < 2 ^ 64 := by simpa [two64] using ha
  simpa [rotl13, two64] using Nat.or_lt_two_pow h1 h2

theorem i64abs_spec (q : Nat) (hq : q < two64) (hne : q ≠ two63) :
    toInt (if toInt q < 0 then (two64 - q) % two64 else q) = |toInt q| ∧
    0 ≤ toInt (if toInt q < 0 then (two64 - q) % two64 else q) := by
  have hWW : two64 = 2 * two63 := by norm_num [two63, two64]
  by_cases h : toInt q < 0
  · have hq63 : ¬ q < two63 := by
      intro hlt
      rw [toInt, if_pos hlt] at h
      omega
    have hgt : two63 < q := lt_of_le_of_ne (le_of_not_lt hq63) (Ne.symm hne)
    have hsub : two64 - q < two63 := by omega
    have hmod : (two64 - q) % two64 = two64 - q := Nat.mod_eq_of_lt (by omega)
    have htoq : toInt q = (q : Int) - (two64 : Int) := by rw [toInt, if_neg hq63]
    rw [if_pos h, hmod]
    have htor : toInt (two64 - q) = ((two64 - q : Nat) : Int) := by
      rw [toInt, if_pos hsub]
    rw [htor]
    constructor
    · rw [abs_of_neg (htoq ▸ h), htoq]
      push_cast [Nat.le_of_lt hq]
      ring
    · positivity
  · rw [if_neg h]
    exact ⟨(abs_of_nonneg (not_lt.mp h)).symm, not_lt.mp h⟩

/-- C4 counterexample: at counter `2^50`, clock low bits `0` and random
value `0`, the pre-rotation value is `2^50`, the rotation yields the
pattern `2^63` — the minimum int64 — and the Go `if scrambled < 0
{ scrambled = -scrambled }` leaves it unchanged: the synthesized value is
negative, refuting the claim that taking the absolute value guarantees a
non-negative result. -/
theorem synthesized_value_negative :
    generateNonSequentialValue (2 ^ 50) 0 (some 0) = some (2 ^ 63) ∧
    toInt (2 ^ 63) < 0 := by
  constructor <;> decide

/-- C4 (amended): for every counter pattern, clock low bits `timeSeed`,
and random value `r < 1000`, *provided* the pre-rotation value
`s = ((counter XOR timeSeed) + r) mod 2^64` is non-negative as an int64
(`s < 2^63` — the Go `>>` is an arithmetic shift, so the shift-or
expression is a true rotation only then) and the rotated value is not the
minimum int64, one synthesis step computes exactly the absolute value of
the 13-bit left rotation of `s`, the result is non-negative, and the
counter is advanced by exactly one (wrapping int64 increment). -/
theorem synthesis_step_formula (counter timeSeed r : Nat)
    (hc : counter < two64) (ht : timeSeed < 2 ^ 16) (hr : r < 1000)
    (hpos : ((counter ^^^ timeSeed) + r) % two64 < two63)
    (hmin : rotl13 (((counter ^^^ timeSeed) + r) % two64) ≠ two63) :
    (∀ v, generateNonSequentialValue counter timeSeed (some r) = some v →
      toInt v = |toInt (rotl13 (((counter ^^^ timeSeed) + r) % two64))| ∧
      0 ≤ toInt v) ∧
    (∀ ids c',
      generateMultipleIDsInternal counter 1 (fun _ => (timeSeed, some r)) =
        .ok (ids, c') →
      c' = (counter + 1) % two64) := by
  have hs64 : ((counter ^^^ timeSeed) + r) % two64 < two64 :=
    Nat.mod_lt _ (by norm_num [two64])
  have hasr : asr51 (((counter ^^^ timeSeed) + r) % two64) =
      (((counter ^^^ timeSeed) + r) % two64) >>> 51 := by
    rw [asr51, if_pos hpos]
  constructor
  · intro v hv
    unfold generateNonSequentialValue at hv
    simp only [Option.some.injEq] at hv
    rw [hasr] at hv
    rw [← hv]
    exact i64abs_spec _ (rotl13_lt _ hs64) hmin
  · intro ids c' h
    unfold generateMultipleIDsInternal at h
    simp only [generateNonSequentialValue] at h
    unfold generateMultipleIDsInternal at h
    simp only [GoRes.ok.injEq, Prod.mk.injEq] at h
    exact h.2.symm

/-- Witness for C4 (amended) at counter 5, clock bits 3, random value 7:
the pre-rotation value is 13 and the synthesized value is
`13 <<< 13 = 106496 = |rotl13 13|`. -/
theorem synthesis_step_formula_witness :
    toInt 106496 = |toInt (rotl13 (((5 ^^^ 3) + 7) % two64))| ∧
    0 ≤ toInt 106496 :=
  (synthesis_step_formula 5 3 7 (by decide) (by decide) (by decide) (by decide)
    (by decide)).1 106496 (by decide)

/-! ## Randomness failure handling (C3) -/

/-- C3: the code discards randomness-source errors instead of returning
them.  At generator construction (`randomStart, _ := rand.Int(...)`) and
during synthesis (`randomComponent, _ := rand.Int(...)`) a failing
randomness source makes the code dereference the `nil` `*big.Int` and
panic (`crash`); and `generateMultipleIDsInternal` can never return a
non-nil error — its result is always a success or a panic, never the
explicit error the spec requires. -/
theorem randomness_failure_never_an_error :
    NewBase62KeyGenerationService none 0 = .crash ∧
    GenerateUniqueID ⟨0, []⟩ (fun _ => (0, none)) = .crash ∧
    ∀ counter count env,
      (∃ out, generateMultipleIDsInternal counter count env = .ok out) ∨
      generateMultipleIDsInternal counter count env = .crash := by
  refine ⟨rfl, rfl, ?_⟩
  intro counter count
  induction count generalizing counter with
  | zero => intro env; exact Or.inl ⟨([], counter), rfl⟩
  | succ k ih =>
    intro env
    unfold generateMultipleIDsInternal
    cases hg : generateNonSequentialValue counter (env 0).1 (env 0).2 with
    | none => exact Or.inr rfl
    | some v =>
      simp only
      rcases ih ((counter + 1) % two64) (fun i => env (i + 1)) with ⟨out, hout⟩ | hout
      · rw [hout]; exact Or.inl ⟨_, rfl⟩
      · rw [hout]; exact Or.inr rfl

/-! ## Identifier extraction lemmas -/

theorem splitOnSlash_ne_nil : ∀ s : List Char, splitOnSlash s ≠ [] := by
  intro s
  cases s with
  | nil => simp [splitOnSlash]
  | cons c rest =>
    unfold splitOnSlash
    cases h : splitOnSlash rest with
    | nil => simp
    | cons g gs => by_cases hc : c = '/' <;> simp [hc]

theorem splitOnSlash_no_slash : ∀ s : List Char, '/' ∉ s → splitOnSlash s = [s] := by
  intro s
  induction s with
  | nil => intro _; rfl
  | cons c rest ih =>
    intro h
    have hc : c ≠ '/' := fun he => h (he ▸ List.mem_cons_self c rest)
    have hrest : '/' ∉ rest := fun hm => h (List.mem_cons_of_mem c hm)
    unfold splitOnSlash
    rw [ih hrest]
    simp [hc]

theorem splitOnSlash_len2 : ∀ s : List Char, '/' ∈ s → 2 ≤ (splitOnSlash s).length := by
  intro s
  induction s with
  | nil => intro h; simp at h
  | cons c rest ih =>
    intro h
    unfold splitOnSlash
    cases hs : splitOnSlash rest with
    | nil => exact absurd hs (splitOnSlash_ne_nil rest)
    | cons g gs =>
      by_cases hc : c = '/'
      · simp [hc]
      · have hrest : '/' ∈ rest := by
          rcases List.mem_cons.mp h with he | hm
          · exact absurd he.symm hc
          · exact hm
        have h2 := ih hrest
        rw [hs] at h2
        simp only [List.length_cons] at h2 ⊢
        simp [hc]
        omega

theorem getLastD_irrel : ∀ (l : List (List Char)) (x y : List Char), l ≠ [] →
    l.getLastD x = l.getLastD y := by
  intro l x y hl
  cases l with
  | nil => exact absurd rfl hl
  | cons a t => rw [List.getLastD_cons, List.getLastD_cons]

theorem extract_cons_of_mem (c : Char) (s : List Char) (h : '/' ∈ s) :
    extractIDFromShortURL (c :: s) = extractIDFromShortURL s := by
  unfold extractIDFromShortURL
  cases hs : splitOnSlash s with
  | nil => exact absurd hs (splitOnSlash_ne_nil s)
  | cons g gs =>
    have hgs : gs ≠ [] := by
      have h2 := splitOnSlash_len2 s h
      rw [hs] at h2
      simp only [List.length_cons] at h2
      intro he
      rw [he] at h2
      simp at h2
    unfold splitOnSlash
    rw [hs]
    show (if c = '/' then [] :: g :: gs else (c :: g) :: gs).getLastD (c :: s) =
      (g :: gs).getLastD s
    by_cases hc : c = '/'
    · rw [if_pos hc, List.getLastD_cons, List.getLastD_cons, List.getLastD_cons]
    · rw [if_neg hc, List.getLastD_cons, List.getLastD_cons]
      exact getLastD_irrel gs _ _ hgs

theorem extract_of_no_slash (s : List Char) (h : '/' ∉ s) :
    extractIDFromShortURL s = s := by
  unfold extractIDFromShortURL
  rw [splitOnSlash_no_slash s h]
  rfl

theorem extract_append_slash (pre id : List Char) (h : '/' ∉ id) :
    extractIDFromShortURL (pre ++ '/' :: id) = id := by
  induction pre with
  | nil =>
    simp only [List.nil_append]
    unfold extractIDFromShortURL splitOnSlash
    rw [splitOnSlash_no_slash id h]
    simp [List.getLastD_cons]
  | cons c pre' ih =>
    have hmem : '/' ∈ pre' ++ '/' :: id :=
      List.mem_append_right _ (List.mem_cons_self _ _)
    rw [List.cons_append, extract_cons_of_mem c _ hmem, ih]

theorem goodID_no_slash (id : List Char) (h : GoodID id) : '/' ∉ id := by
  intro hm
  have hmem := h.2 '/' hm
  revert hmem
  decide

theorem goodID_ne_nil (id : List Char) (h : GoodID id) : id ≠ [] := by
  intro he
  rw [he] at h
  simp [GoodID] at h

/-! ## Create / Resolve round trip (C2) -/

theorem generateUniqueID_ok (kst : KGSState) (env : Nat → Nat × Option Nat)
    (hbuf : ∀ id ∈ kst.buffer, GoodID id)
    (henv : ∀ i, ((env i).2).isSome) :
    ∃ id kst', GenerateUniqueID kst env = .ok (id, kst') ∧ GoodID id := by
  cases hb : kst.buffer with
  | cons b rest =>
    refine ⟨b, ⟨kst.counter, rest⟩, ?_, hbuf b (hb ▸ List.mem_cons_self b rest)⟩
    unfold GenerateUniqueID
    rw [hb]
  | nil =>
    obtain ⟨r, hr⟩ := Option.isSome_iff_exists.mp (henv 0)
    cases hg : generateNonSequentialValue kst.counter (env 0).1 (env 0).2 with
    | none => rw [hr] at hg; simp [generateNonSequentialValue] at hg
    | some v =>
      refine ⟨padToLength (encodeBase62 v) 7, ⟨(kst.counter + 1) % two64, []⟩, ?_,
        goodID_synth v⟩
      unfold GenerateUniqueID
      rw [hb]
      unfold generateMultipleIDsInternal
      rw [hg]
      rfl

/-- C2: for every non-empty long URL, `CreateShortURL` with no custom
identifier succeeds with a short URL equal to the base URL with any
trailing `'/'` removed, followed by `'/'` and the generated identifier;
and a subsequent `GetLongURL` with that exact short URL (at any later
instant — no expiry was requested) returns the original long URL. -/
theorem create_then_resolve (baseURL longURL : List Char) (st : Store)
    (kst : KGSState) (env : Nat → Nat × Option Nat) (now : Nat)
    (meta : List (List Char × List Char))
    (hl : longURL ≠ [])
    (hbuf : ∀ id ∈ kst.buffer, GoodID id)
    (henv : ∀ i, ((env i).2).isSome) :
    ∃ id st' kst',
      CreateShortURL baseURL st kst env ⟨longURL, [], none, meta⟩ now =
        (.ok (trimSlashSuffix baseURL ++ '/' :: id), st', kst') ∧
      GoodID id ∧
      ∀ later, GetLongURL st' (trimSlashSuffix baseURL ++ '/' :: id) later =
        .ok longURL := by
  obtain ⟨id, kst', hgen, hgood⟩ := generateUniqueID_ok kst env hbuf henv
  have hful : trimSlashSuffix baseURL ++ '/' :: id ≠ [] := by simp
  refine ⟨id, Save st ⟨id, longURL, buildShortURL baseURL id, now, none, true, meta⟩,
    kst', ?_, hgood, ?_⟩
  · have hnew : NewShortURL id longURL (buildShortURL baseURL id) none meta now =
        Except.ok ⟨id, longURL, buildShortURL baseURL id, now, none, true, meta⟩ := by
      unfold NewShortURL
      rw [if_neg hl, if_neg (by simp [buildShortURL])]
    unfold CreateShortURL
    simp only [if_neg hl, ne_eq, not_true_eq_false, if_false]
    rw [hgen]
    simp only [hnew]
    rfl
  · intro later
    unfold GetLongURL
    rw [if_neg hful,
      extract_append_slash (trimSlashSuffix baseURL) id (goodID_no_slash id hgood)]
    show (match FindByID (Save st _) id with
      | none => _
      | some e => _) = _
    rw [show FindByID
        (Save st ⟨id, longURL, buildShortURL baseURL id, now, none, true, meta⟩) id =
        some ⟨id, longURL, buildShortURL baseURL id, now, none, true, meta⟩ by
      simp [FindByID, Save]]
    simp [IsExpired]

/-- Witness for C2: creating `"https://example.com"` against base URL
`"http://test.com"` from a fresh generator and empty store, then resolving
the returned short URL. -/
theorem create_then_resolve_witness :
    ∃ id st' kst',
      CreateShortURL "http://test.com".toList emptyStore ⟨0, []⟩
          (fun _ => (0, some 0))
          ⟨"https://example.com".toList, [], none, []⟩ 0 =
        (.ok (trimSlashSuffix "http://test.com".toList ++ '/' :: id), st', kst') ∧
      GoodID id ∧
      ∀ later, GetLongURL st'
          (trimSlashSuffix "http://test.com".toList ++ '/' :: id) later =
        .ok "https://example.com".toList :=
  create_then_resolve "http://test.com".toList "https://example.com".toList
    emptyStore ⟨0, []⟩ (fun _ => (0, some 0)) 0 []
    (by decide) (by intro id hid; simp at hid) (fun i => rfl)

/-! ## Entity construction (C6) -/

/-- C6: entity construction fails exactly when a required field is empty.
`NewShortURL` fails with the empty-long-URL error when `longURL` is empty,
and (otherwise) with the empty-short-URL error when `shortURL` is empty;
`NewCustomShortURL` fails with the empty-long-URL error when `longURL` is
empty, and (otherwise) with the empty-custom-ID error when `customURL` is
empty.  On success the entity is active, and the custom path sets both
`id` and `shortURL` to the custom identifier. -/
theorem entity_construction_validation (id longURL shortURL customURL : List Char)
    (expiry : Option Nat) (meta : List (List Char × List Char)) (now : Nat) :
    ((∃ m, NewShortURL id longURL shortURL expiry meta now = .error m) ↔
      longURL = [] ∨ shortURL = []) ∧
    ((∃ m, NewCustomShortURL customURL longURL expiry meta now = .error m) ↔
      longURL = [] ∨ customURL = []) ∧
    (longURL = [] →
      NewShortURL id longURL shortURL expiry meta now =
        .error "long URL cannot be empty" ∧
      NewCustomShortURL customURL longURL expiry meta now =
        .error "long URL cannot be empty") ∧
    (longURL ≠ [] → shortURL = [] →
      NewShortURL id longURL shortURL expiry meta now =
        .error "short URL cannot be empty") ∧
    (longURL ≠ [] → customURL = [] →
      NewCustomShortURL customURL longURL expiry meta now =
        .error "custom URL cannot be empty") ∧
    (longURL ≠ [] → shortURL ≠ [] →
      NewShortURL id longURL shortURL expiry meta now =
        .ok ⟨id, longURL, shortURL, now, expiry, true, meta⟩) ∧
    (longURL ≠ [] → customURL ≠ [] →
      NewCustomShortURL customURL longURL expiry meta now =
        .ok ⟨customURL, longURL, customURL, now, expiry, true, meta⟩) := by
  unfold NewShortURL NewCustomShortURL
  by_cases h1 : longURL = [] <;> by_cases h2 : shortURL = [] <;>
    by_cases h3 : customURL = [] <;>
    simp [h1, h2, h3]

/-- Witness for C6: concrete instances of each clause — empty long URL is
rejected, and a fully-populated custom construction succeeds active. -/
theorem entity_construction_validation_witness :
    NewShortURL ['i'] [] ['s'] none [] 0 = .error "long URL cannot be empty" ∧
    NewCustomShortURL ['c'] ['l'] none [] 0 = .ok ⟨['c'], ['l'], ['c'], 0, none, true, []⟩ :=
  ⟨((entity_construction_validation ['i'] [] ['s'] ['c'] none [] 0).2.2.1 rfl).1,
   (entity_construction_validation ['i'] ['l'] ['s'] ['c'] none [] 0).2.2.2.2.2.2
     (by decide) (by decide)⟩

/-! ## Resolution semantics (C7) -/

/-- C7: for every non-empty short-URL input, `GetLongURL` returns the
not-found error when no entity is stored under the extracted identifier;
the single not-active-or-expired error — the same error value in both
cases — when the entity is inactive or expired; and otherwise the entity's
long URL with no error. -/
theorem resolve_semantics (st : Store) (s : List Char) (now : Nat) (hs : s ≠ []) :
    (FindByID st (extractIDFromShortURL s) = none →
      GetLongURL st s now = .error "short URL not found") ∧
    (∀ e, FindByID st (extractIDFromShortURL s) = some e →
      ((e.isActive = false ∨ IsExpired now e = true) →
        GetLongURL st s now = .error "short URL is not active or expired") ∧
      (e.isActive = true → IsExpired now e = false →
        GetLongURL st s now = .ok e.longURL)) := by
  unfold GetLongURL
  rw [if_neg hs]
  constructor
  · intro h
    rw [h]
  · intro e he
    rw [he]
    have hred : (match some e with
        | none => (Except.error "short URL not found" : Except String (List Char))
        | some e =>
          if (!e.isActive || IsExpired now e) = true then
            Except.error "short URL is not active or expired"
          else Except.ok e.longURL) =
        if (!e.isActive || IsExpired now e) = true then
          Except.error "short URL is not active or expired"
        else Except.ok e.longURL := rfl
    rw [hred]
    constructor
    · intro hbad
      have hcond : (!e.isActive || IsExpired now e) = true := by
        rcases hbad with h | h <;> simp [h]
      rw [if_pos hcond]
    · intro hact hexp
      rw [if_neg (by simp [hact, hexp])]

/-- Witness for C7: a three-entry concrete store — an inactive entity and
an expired entity both resolve to the same state error, a missing one to
not-found. -/
theorem resolve_semantics_witness :
    GetLongURL (Save emptyStore ⟨['a'], ['l'], ['a'], 0, none, false, []⟩) ['a'] 5 =
      .error "short URL is not active or expired" ∧
    GetLongURL (Save emptyStore ⟨['b'], ['l'], ['b'], 0, some 1, true, []⟩) ['b'] 5 =
      .error "short URL is not active or expired" ∧
    GetLongURL emptyStore ['c'] 5 = .error "short URL not found" :=
  ⟨((resolve_semantics (Save emptyStore ⟨['a'], ['l'], ['a'], 0, none, false, []⟩)
      ['a'] 5 (by decide)).2 ⟨['a'], ['l'], ['a'], 0, none, false, []⟩ (by decide)).1
      (Or.inl rfl),
   ((resolve_semantics (Save emptyStore ⟨['b'], ['l'], ['b'], 0, some 1, true, []⟩)
      ['b'] 5 (by decide)).2 ⟨['b'], ['l'], ['b'], 0, some 1, true, []⟩ (by decide)).1
      (Or.inr rfl),
   (resolve_semantics emptyStore ['c'] 5 (by decide)).1 rfl⟩

/-! ## Custom-identifier conflicts (C8) -/

/-- C8: when the store already holds an entity under the requested custom
identifier, `CreateShortURL` fails with the conflict error and leaves the
store unchanged; and after a successful custom create, a second create
with the same custom identifier fails with the conflict error, again
leaving the store unchanged. -/
theorem custom_create_conflict (baseURL custom longURL longURL2 : List Char)
    (st : Store) (kst kst2 : KGSState) (env env2 : Nat → Nat × Option Nat)
    (expiry expiry2 : Option Nat) (meta meta2 : List (List Char × List Char))
    (now now2 : Nat)
    (hc : custom ≠ []) (hl : longURL ≠ []) (hl2 : longURL2 ≠ []) :
    (∀ e, FindByID st custom = some e →
      CreateShortURL baseURL st kst env ⟨longURL, custom, expiry, meta⟩ now =
        (.fail "custom URL already exists", st, kst)) ∧
    (FindByID st custom = none →
      CreateShortURL baseURL st kst env ⟨longURL, custom, expiry, meta⟩ now =
        (.ok custom, Save st ⟨custom, longURL, custom, now, expiry, true, meta⟩, kst) ∧
      CreateShortURL baseURL (Save st ⟨custom, longURL, custom, now, expiry, true, meta⟩)
          kst2 env2 ⟨longURL2, custom, expiry2, meta2⟩ now2 =
        (.fail "custom URL already exists",
          Save st ⟨custom, longURL, custom, now, expiry, true, meta⟩, kst2)) := by
  constructor
  · intro e he
    unfold CreateShortURL
    simp only [if_neg hl, if_pos hc]
    rw [he]
  · intro hnone
    constructor
    · have hnew : NewCustomShortURL custom longURL expiry meta now =
          Except.ok ⟨custom, longURL, custom, now, expiry, true, meta⟩ := by
        unfold NewCustomShortURL
        rw [if_neg hl, if_neg hc]
      unfold CreateShortURL
      simp only [if_neg hl, if_pos hc]
      rw [hnone]
      simp only [hnew]
    · unfold CreateShortURL
      simp only [if_neg hl2, if_pos hc]
      rw [show FindByID (Save st ⟨custom, longURL, custom, now, expiry, true, meta⟩)
          custom = some ⟨custom, longURL, custom, now, expiry, true, meta⟩ by
        simp [FindByID, Save]]

/-- Witness for C8: creating custom identifier `"c"` twice over the empty
store — the first call succeeds, the second fails with the conflict. -/
theorem custom_create_conflict_witness :
    CreateShortURL ['b'] emptyStore ⟨0, []⟩ (fun _ => (0, some 0))
        ⟨['l'], ['c'], none, []⟩ 0 =
      (.ok ['c'], Save emptyStore ⟨['c'], ['l'], ['c'], 0, none, true, []⟩, ⟨0, []⟩) ∧
    CreateShortURL ['b'] (Save emptyStore ⟨['c'], ['l'], ['c'], 0, none, true, []⟩)
        ⟨0, []⟩ (fun _ => (0, some 0)) ⟨['l'], ['c'], none, []⟩ 1 =
      (.fail "custom URL already exists",
        Save emptyStore ⟨['c'], ['l'], ['c'], 0, none, true, []⟩, ⟨0, []⟩) :=
  (custom_create_conflict ['b'] ['c'] ['l'] ['l'] emptyStore ⟨0, []⟩ ⟨0, []⟩
    (fun _ => (0, some 0)) (fun _ => (0, some 0)) none none [] [] 0 1
    (by decide) (by decide) (by decide)).2 rfl

/-! ## Store deletion (C9) -/

/-- C9: `Delete` fails with the not-found error exactly when no entity is
stored under `id`, and leaves the store unchanged in that case; when an
entity is stored under `id` it succeeds, removes exactly that entry, and
leaves every other key unchanged. -/
theorem delete_semantics (st : Store) (id : List Char) :
    ((Delete st id).1 = some "short URL not found" ↔ st id = none) ∧
    (st id = none → (Delete st id).2 = st) ∧
    (∀ e, st id = some e →
      (Delete st id).1 = none ∧
      (Delete st id).2 id = none ∧
      ∀ k, k ≠ id → (Delete st id).2 k = st k) := by
  unfold Delete
  refine ⟨?_, ?_, ?_⟩
  · constructor
    · intro h
      cases hs : st id with
      | none => rfl
      | some e => rw [hs] at h; simp at h
    · intro h
      rw [h]
  · intro h
    rw [h]
  · intro e he
    rw [he]
    refine ⟨rfl, by simp, ?_⟩
    intro k hk
    simp [hk]

/-- Witness for C9: deleting the present key `"a"` succeeds and removes
it; deleting from the empty store reports not-found. -/
theorem delete_semantics_witness :
    (Delete (Save emptyStore ⟨['a'], ['l'], ['a'], 0, none, true, []⟩) ['a']).1 = none ∧
    (Delete (Save emptyStore ⟨['a'], ['l'], ['a'], 0, none, true, []⟩) ['a']).2 ['a'] =
      none ∧
    (Delete emptyStore ['x']).1 = some "short URL not found" :=
  ⟨((delete_semantics (Save emptyStore ⟨['a'], ['l'], ['a'], 0, none, true, []⟩)
      ['a']).2.2 ⟨['a'], ['l'], ['a'], 0, none, true, []⟩ (by decide)).1,
   ((delete_semantics (Save emptyStore ⟨['a'], ['l'], ['a'], 0, none, true, []⟩)
      ['a']).2.2 ⟨['a'], ['l'], ['a'], 0, none, true, []⟩ (by decide)).2.1,
   (delete_semantics emptyStore ['x']).1.mpr rfl⟩

/-! ## Bare-identifier resolution (C10) -/

/-- C10 counterexample: an entity stored under the empty identifier —
which contains no `'/'`, and is constructible because `NewShortURL` does
not validate the id — is resolvable through a slash-terminated short URL,
yet `GetLongURL` on the bare identifier `""` fails the non-empty input
validation instead of finding the same entity. -/
theorem bare_empty_identifier_not_resolved :
    NewShortURL [] ['l'] ['s'] none [] 0 = .ok ⟨[], ['l'], ['s'], 0, none, true, []⟩ ∧
    FindByID (Save emptyStore ⟨[], ['l'], ['s'], 0, none, true, []⟩) [] =
      some ⟨[], ['l'], ['s'], 0, none, true, []⟩ ∧
    '/' ∉ ([] : List Char) ∧
    GetLongURL (Save emptyStore ⟨[], ['l'], ['s'], 0, none, true, []⟩) ['x', '/'] 9 =
      .ok ['l'] ∧
    GetLongURL (Save emptyStore ⟨[], ['l'], ['s'], 0, none, true, []⟩) [] 9 =
      .error "shortUrl is required" := by
  exact ⟨rfl, rfl, by simp, rfl, rfl⟩

/-- C10 (amended): for every store and every *non-empty* identifier
containing no `'/'`, resolving with the bare identifier behaves exactly as
resolving with any full short URL whose final `'/'`-separated segment is
that identifier: a slash-free input is its own final segment, so both
calls look up the same store key. -/
theorem bare_identifier_resolution (st : Store) (id pre : List Char) (now : Nat)
    (hne : id ≠ []) (hs : '/' ∉ id) :
    extractIDFromShortURL id = id ∧
    GetLongURL st id now = GetLongURL st (pre ++ '/' :: id) now := by
  refine ⟨extract_of_no_slash id hs, ?_⟩
  unfold GetLongURL
  rw [if_neg hne, if_neg (by simp)]
  rw [extract_of_no_slash id hs, extract_append_slash pre id hs]

/-- Witness for C10 (amended) at identifier `"a"` and prefix `"h"`. -/
theorem bare_identifier_resolution_witness :
    extractIDFromShortURL ['a'] = ['a'] ∧
    GetLongURL emptyStore ['a'] 0 = GetLongURL emptyStore (['h'] ++ '/' :: ['a']) 0 :=
  bare_identifier_resolution emptyStore ['a'] ['h'] 0 (by decide) (by decide)

end ShortUrl
